import Mathlib

/-!
Verification development for the FRP-concrete bond-strength prediction
application (`prediction_app.py`).

The file shallowly embeds the two pieces of logic the specification talks
about: the single-record feature pipeline (`predict`) and the batch runner
(`batch_predict` / `run_prediction`).  The pre-fitted scaler and model are
opaque external artifacts; they are represented as functions that may raise
a Python exception, and Python's `except ValueError` / `except Exception`
discrimination is modelled by tagging exceptions with their type.
-/

set_option autoImplicit false

namespace FRP

/-- Python exceptions, as far as the application's handlers discriminate
them: `predict` has separate `except ValueError` and `except Exception`
clauses, so an exception is either a `ValueError` or anything else. -/
inductive PyErr where
  | valueError (msg : String)
  | other (msg : String)
deriving DecidableEq

/-- The message `str(e)` carried by an exception. -/
def PyErr.msg : PyErr → String
  | .valueError m => m
  | .other m => m

/-- A spreadsheet cell as materialised by `pd.read_excel`: numeric or text. -/
inductive Cell where
  | num (q : ℚ)
  | str (s : String)
deriving DecidableEq

/-- Whether a cell is numeric (`pd.api.types.is_numeric_dtype` holds for a
column exactly when every cell of the column is numeric). -/
def Cell.isNum : Cell → Bool
  | .num _ => true
  | .str _ => false

/-- The numeric content of a cell; only used after the numeric check. -/
def Cell.toQ : Cell → ℚ
  | .num q => q
  | .str _ => 0

/-- The two opaque artifacts loaded from `model.pkl` and `scaler.pkl`.
`transform` is `scaler.transform` on an N×8 matrix; `predict` is
`model.predict` on a matrix, returning one value per row.  Either call may
raise an exception. -/
structure Artifacts where
  transform : List (List ℚ) → Except PyErr (List (List ℚ))
  predict : List (List ℚ) → Except PyErr (List ℚ)

/-- Artifacts that apply a total row function to every row, the behaviour
of a fitted scikit-learn scaler/model pair. -/
def rowArtifacts (f : List ℚ → List ℚ) (g : List ℚ → ℚ) : Artifacts :=
  ⟨fun m => .ok (m.map f), fun m => .ok (m.map g)⟩

/-! ### Text parsing used by the single-prediction form -/

/-- Numeric value of a list of decimal digits. -/
def digitsVal (cs : List Char) : ℕ :=
  cs.foldl (fun n c => 10 * n + (c.toNat - '0'.toNat)) 0

/-- Drop a given character from both ends of a character list;
this is Python's `str.strip(c)`. -/
def stripChar (c : Char) (cs : List Char) : List Char :=
  ((cs.dropWhile (· = c)).reverse.dropWhile (· = c)).reverse

/-- Python `int(s)`: optional surrounding spaces, an optional sign, then
decimal digits.  A string of any other shape raises `ValueError`,
modelled as `none`. -/
def pyInt? (s : String) : Option ℤ :=
  match stripChar ' ' s.toList with
  | '+' :: rest =>
      if !rest.isEmpty && rest.all Char.isDigit then some (digitsVal rest) else none
  | '-' :: rest =>
      if !rest.isEmpty && rest.all Char.isDigit then some (-(digitsVal rest : ℤ)) else none
  | rest =>
      if !rest.isEmpty && rest.all Char.isDigit then some (digitsVal rest) else none

/-- Python `float(s)` restricted to plain decimal literals: optional
surrounding spaces, an optional sign, an integer part and an optional
fractional part (at least one digit overall).  Exponent notation and
`inf`/`nan` spellings are left out; a string outside this shape raises
`ValueError`, modelled as `none`. -/
def pyFloat? (s : String) : Option ℚ :=
  let cs := stripChar ' ' s.toList
  let sb : Bool × List Char :=
    match cs with
    | '+' :: r => (false, r)
    | '-' :: r => (true, r)
    | r => (false, r)
  let ip := sb.2.takeWhile Char.isDigit
  match sb.2.dropWhile Char.isDigit with
  | [] =>
      if ip.isEmpty then none
      else some (if sb.1 then -(digitsVal ip : ℚ) else (digitsVal ip : ℚ))
  | '.' :: fp =>
      if fp.all Char.isDigit && !(ip.isEmpty && fp.isEmpty) then
        some (if sb.1 then -((digitsVal ip : ℚ) + (digitsVal fp : ℚ) / 10 ^ fp.length)
              else (digitsVal ip : ℚ) + (digitsVal fp : ℚ) / 10 ^ fp.length)
      else none
  | _ => none

/-- The segment after the last `'('`, or the whole string when none
occurs; this is `s.split('(')[-1]`. -/
def afterLastOpen (cs : List Char) : List Char :=
  (cs.reverse.takeWhile (fun c => c ≠ '(')).reverse

/-- Extraction of the categorical code from a combobox label, exactly
`int(value.split('(')[-1].strip(')'))` from `predict`. -/
def extractCode (s : String) : Option ℤ :=
  pyInt? (String.mk (stripChar ')' (afterLastOpen s.toList)))

/-! ### The single-prediction form -/

/-- One form input: a free-text entry for a continuous feature, or a
read-only combobox for a categorical feature (the loop in `predict`
distinguishes the two by `isinstance(var, tk.StringVar)`). -/
inductive FieldInput where
  | entry (s : String)
  | combo (s : String)
deriving DecidableEq

/-- Reading one form field inside `predict`'s loop: `float(var.get())`
for an entry, `int(var.get().split('(')[-1].strip(')'))` for a combobox.
`none` is a raised `ValueError`. -/
def readField : FieldInput → Option ℚ
  | .entry s => pyFloat? s
  | .combo s => (extractCode s).map (fun z => (z : ℚ))

/-- The `input_values` accumulation loop of `predict`: fields are read in
order and the first `ValueError` aborts the loop. -/
def parseFields : List FieldInput → Option (List ℚ)
  | [] => some []
  | f :: fs =>
    match readField f, parseFields fs with
    | some q, some qs => some (q :: qs)
    | _, _ => none

/-- Outcome displayed by `predict`: the prediction, the fixed
input-validation message (`lang["error_input"]`, the `except ValueError`
arm), or the generic error message carrying `str(e)` (the
`except Exception` arm). -/
inductive SingleOutcome where
  | ok (pred : ℚ)
  | inputError
  | otherError (msg : String)
deriving DecidableEq

/-- Observable calls made by `predict` into the opaque artifacts. -/
inductive SingleEv where
  | callTransform (m : List (List ℚ))
  | callPredict (m : List (List ℚ))
deriving DecidableEq

/-- The single-prediction pipeline `predict`: read all 8 fields, call
`scaler.transform([input_values])`, then `model.predict(...)`, and take
element `[0]` of the predictions.  A `ValueError` raised anywhere in the
`try` block lands in the `except ValueError` arm; any other exception
(including the `IndexError` from `[0]` on an empty result) lands in the
generic arm.  The second component records which artifact calls were
made. -/
def predictSingle (A : Artifacts) (fields : List FieldInput) :
    SingleOutcome × List SingleEv :=
  match parseFields fields with
  | none => (.inputError, [])
  | some vals =>
    match A.transform [vals] with
    | .error (.valueError _) => (.inputError, [.callTransform [vals]])
    | .error (.other m) => (.otherError m, [.callTransform [vals]])
    | .ok scaled =>
      match A.predict scaled with
      | .error (.valueError _) =>
          (.inputError, [.callTransform [vals], .callPredict scaled])
      | .error (.other m) =>
          (.otherError m, [.callTransform [vals], .callPredict scaled])
      | .ok ps =>
        match ps.head? with
        | none =>
            (.otherError "list index out of range",
             [.callTransform [vals], .callPredict scaled])
        | some p => (.ok p, [.callTransform [vals], .callPredict scaled])

/-- The mathematical single-record pipeline on an already-parsed feature
vector: `scaler.transform([v])` then `model.predict(...)[0]`. -/
def singleCore (A : Artifacts) (v : List ℚ) : Except PyErr ℚ :=
  match A.transform [v] with
  | .error e => .error e
  | .ok scaled =>
    match A.predict scaled with
    | .error e => .error e
    | .ok ps =>
      match ps.head? with
      | none => .error (.other "list index out of range")
      | some p => .ok p

/-! ### Localisation data for the form -/

/-- The display language selected through the Language menu. -/
inductive Lang where
  | en
  | zh
deriving DecidableEq

/-- `FM_values` from the translation tables: failure-mode labels paired
with their integer codes. -/
def fmValues : Lang → List (String × ℤ)
  | .en => [("FRP-sand layer debonding", 1), ("FRP bar pullout", 2),
            ("Concrete shear failure", 3), ("FRP bar rupture", 4),
            ("Concrete splitting", 5)]
  | .zh => [("FRP沙层脱粘", 1), ("FRP钢筋拔出", 2), ("混凝土剪切破坏", 3),
            ("FRP钢筋断裂", 4), ("混凝土劈裂", 5)]

/-- `FT_values` from the translation tables: FRP-type labels and codes. -/
def ftValues : Lang → List (String × ℤ)
  | .en => [("GFRP", 1), ("CFRP", 2), ("BFRP", 3)]
  | .zh => [("GFRP", 1), ("CFRP", 2), ("BFRP", 3)]

/-- `BS_values` from the translation tables: bar-surface labels and codes. -/
def bsValues : Lang → List (String × ℤ)
  | .en => [("Sand-coated", 1), ("Fiber-wrapped sand-coated", 2), ("Ribbed", 3),
            ("Fiber-wrapped", 4), ("Sand-coated ribbed", 5)]
  | .zh => [("砂涂层", 1), ("纤维包裹砂涂层", 2), ("肋纹", 3),
            ("纤维包裹", 4), ("砂涂层肋纹", 5)]

/-- Combobox label construction `f"{desc} ({val})"`. -/
def formatLabel (desc : String) (code : ℤ) : String :=
  desc ++ " (" ++ toString code ++ ")"

/-- The label shown for selection index `i` of a combobox populated from a
(description, code) table. -/
def comboLabel (vs : List (String × ℤ)) (i : ℕ) : String :=
  formatLabel (vs.getD i ("", 0)).1 (vs.getD i ("", 0)).2

/-- The 8 form fields in the fixed order T, FM, FT, BS, d, la, fc, c/d:
entries hold the raw typed strings, the three comboboxes hold the label of
the selected index in the current language's table. -/
def formFields (lang : Lang) (tS dS laS fcS cdS : String)
    (iFM iFT iBS : ℕ) : List FieldInput :=
  [FieldInput.entry tS,
   FieldInput.combo (comboLabel (fmValues lang) iFM),
   FieldInput.combo (comboLabel (ftValues lang) iFT),
   FieldInput.combo (comboLabel (bsValues lang) iBS),
   FieldInput.entry dS,
   FieldInput.entry laS,
   FieldInput.entry fcS,
   FieldInput.entry cdS]

/-- The enumerated failure-mode codes, as rationals. -/
def codesFM : List ℚ := [1, 2, 3, 4, 5]

/-- The enumerated FRP-type codes, as rationals. -/
def codesFT : List ℚ := [1, 2, 3]

/-- The enumerated bar-surface codes, as rationals. -/
def codesBS : List ℚ := [1, 2, 3, 4, 5]

/-! ### The batch runner -/

/-- The table read by `pd.read_excel(file_path, header=None)`: `ncols` is
`df.shape[1]` and `rows` the data rows in file order. -/
structure BatchTable where
  ncols : ℕ
  rows : List (List Cell)
deriving DecidableEq

/-- Whether a table is rectangular with `ncols` cells per row, as a
DataFrame is. -/
def BatchTable.rect (t : BatchTable) : Bool :=
  t.rows.all (fun r => r.length = t.ncols)

/-- `pd.api.types.is_numeric_dtype(df[col])` for column `j`: every cell of
the column is numeric.  A missing cell defaults to a non-numeric
placeholder so that a too-short row can never pass the check. -/
def colNumeric (rows : List (List Cell)) (j : ℕ) : Bool :=
  rows.all (fun r => (r.getD j (Cell.str "")).isNum)

/-- The check `all(pd.api.types.is_numeric_dtype(df[col]) for col in
feature_columns)` over the first 8 columns. -/
def featNumeric (rows : List (List Cell)) : Bool :=
  (List.range 8).all (colNumeric rows)

/-- The feature vector of one row: the first 8 cells, as numbers
(`input_data = df[df.columns[:8]]`). -/
def featRow (r : List Cell) : List ℚ :=
  (r.take 8).map Cell.toQ

/-- The "must contain at least 8 feature columns" `ValueError` message. -/
def tooFewColsMsg : Lang → String
  | .en => "The selected Excel file must contain at least 8 feature columns."
  | .zh => "选择的Excel文件必须至少有8列特征数据。"

/-- The "all feature columns must be numeric" `ValueError` message. -/
def nonNumericMsg : Lang → String
  | .en => "All feature columns must be numeric. Please check the Excel file."
  | .zh => "所有特征列必须为数值型。请检查Excel文件。"

/-- The status text set when the save dialog is cancelled. -/
def cancelMsg : Lang → String
  | .en => "Save operation cancelled."
  | .zh => "保存操作已取消。"

/-- `lang["error_occurred"]`, the leading part of the error status text. -/
def errOccMsg : Lang → String
  | .en => "An error occurred:"
  | .zh => "发生错误:"

/-- The status text set after a successful save (the Chinese branch reuses
`lang["batch_status_start"]`). -/
def savedMsg : Lang → String
  | .en => "Batch prediction completed."
  | .zh => "开始批量预测..."

/-- Observable steps of a batch run. -/
inductive BatchEv where
  | readExcel
  | callTransform (m : List (List ℚ))
  | callPredict (m : List (List ℚ))
  | saveDialog
  | writeFile (path : String)
deriving DecidableEq

/-- Terminal state of one batch run: results written to `path`, results
computed but the save dialog dismissed, or the single `except Exception`
handler reached with message `str(e)`. -/
inductive BatchOutcome where
  | saved (out : List (List Cell)) (path : String)
  | cancelled (out : List (List Cell))
  | error (msg : String)
deriving DecidableEq

/-- The output table carried by a non-error terminal state. -/
def BatchOutcome.table? : BatchOutcome → Option (List (List Cell))
  | .saved out _ => some out
  | .cancelled out => some out
  | .error _ => none

/-- The `batch_status` label text in each terminal state. -/
def BatchOutcome.statusText (lang : Lang) : BatchOutcome → String
  | .saved _ _ => savedMsg lang
  | .cancelled _ => cancelMsg lang
  | .error m => errOccMsg lang ++ " " ++ m

/-- The body of `run_prediction`: check `df.shape[1] < 8`, check that the
first 8 columns are numeric, call `scaler.transform` on the extracted
feature matrix, call `model.predict`, append the predictions as a new
column (`df['Predicted τu (MPa)'] = predictions` raises when the lengths
disagree), then either write to the chosen destination or record the
cancellation.  Every exception is caught by the single `except Exception`
handler.  The second component is the trace of observable steps. -/
def runBatch (lang : Lang) (A : Artifacts) (t : BatchTable)
    (savePath : Option String) : BatchOutcome × List BatchEv :=
  if t.ncols < 8 then
    (.error (tooFewColsMsg lang), [.readExcel])
  else if featNumeric t.rows then
    match A.transform (t.rows.map featRow) with
    | .error e => (.error e.msg, [.readExcel, .callTransform (t.rows.map featRow)])
    | .ok scaled =>
      match A.predict scaled with
      | .error e =>
          (.error e.msg,
           [.readExcel, .callTransform (t.rows.map featRow), .callPredict scaled])
      | .ok preds =>
        if preds.length = t.rows.length then
          match savePath with
          | some p =>
              (.saved (List.zipWith (fun r q => r ++ [Cell.num q]) t.rows preds) p,
               [.readExcel, .callTransform (t.rows.map featRow), .callPredict scaled,
                .saveDialog, .writeFile p])
          | none =>
              (.cancelled (List.zipWith (fun r q => r ++ [Cell.num q]) t.rows preds),
               [.readExcel, .callTransform (t.rows.map featRow), .callPredict scaled,
                .saveDialog])
        else
          (.error "Length of values does not match length of index",
           [.readExcel, .callTransform (t.rows.map featRow), .callPredict scaled])
  else
    (.error (nonNumericMsg lang), [.readExcel])

/-- Enabled state of the two batch-tab controls (`batch_button`,
`browse_button`). -/
structure UIState where
  batchEnabled : Bool
  browseEnabled : Bool
deriving DecidableEq

/-- `batch_predict`: with no file selected it only shows a warning and
leaves the controls untouched; otherwise it disables both controls, runs
`run_prediction`, and the `finally` clause re-enables both controls
whatever the outcome.  Returns the run result (if a run started), the
control state while the run is in flight, and the control state after the
run reaches a terminal state. -/
def batchPredict (lang : Lang) (A : Artifacts) (file? : Option BatchTable)
    (savePath : Option String) (ui : UIState) :
    Option (BatchOutcome × List BatchEv) × UIState × UIState :=
  match file? with
  | none => (none, ui, ui)
  | some t => (some (runBatch lang A t savePath), ⟨false, false⟩, ⟨true, true⟩)

/-! ### Shared concrete instances used by witnesses -/

/-- Artifacts whose scaler is the identity and whose model reads off the
first scaled feature; a concrete stand-in for the opaque fitted pair. -/
def exArtifacts : Artifacts :=
  rowArtifacts (fun v => v) (fun v => v.headD 0)

/-- A two-row, eight-column numeric batch table. -/
def tEx : BatchTable :=
  ⟨8, [[.num 25, .num 2, .num 1, .num 3, .num 12, .num 100, .num 30, .num 2],
       [.num 60, .num 1, .num 2, .num 1, .num 16, .num 80, .num 40, .num 3]]⟩

/-- A nine-column table: eight numeric feature columns plus a text
pass-through column. -/
def tEx9 : BatchTable :=
  ⟨9, [[.num 25, .num 2, .num 1, .num 3, .num 12, .num 100, .num 30, .num 2,
        .str "note"]]⟩

/-- Valid form inputs for a single prediction. -/
def goodFieldsEx : List FieldInput :=
  formFields .en "25" "12" "100" "30" "2" 1 0 2

/-- An eight-column numeric table whose failure-mode column holds 99, a
value outside the enumerated codes 1–5. -/
def tBadFM : BatchTable :=
  ⟨8, [[.num 25, .num 99, .num 1, .num 3, .num 12, .num 100, .num 30, .num 2]]⟩

/-- Artifacts whose transform raises a `ValueError`, as a fitted sklearn
scaler does on a dimensionality mismatch or NaN input. -/
def valErrArtifacts : Artifacts :=
  ⟨fun _ => .error (.valueError "Input contains NaN."),
   fun _ => .error (.valueError "Input contains NaN.")⟩

/-- Artifacts whose transform raises a non-`ValueError` exception. -/
def otherErrArtifacts : Artifacts :=
  ⟨fun _ => .error (.other "boom"), fun _ => .error (.other "boom")⟩

/-! ### Helper lemmas -/

lemma parseFields_eq_none {fields : List FieldInput} {f : FieldInput}
    (hf : f ∈ fields) (h : readField f = none) : parseFields fields = none := by
  induction fields with
  | nil => cases hf
  | cons a fs ih =>
    rcases List.mem_cons.mp hf with rfl | hmem
    · cases hpf : parseFields fs <;> simp [parseFields, h, hpf]
    · cases hra : readField a <;> simp [parseFields, ih hmem, hra]

lemma parseFields_cons {f : FieldInput} {fs : List FieldInput} {vs : List ℚ} :
    parseFields (f :: fs) = some vs ↔
      ∃ q qs, readField f = some q ∧ parseFields fs = some qs ∧ vs = q :: qs := by
  cases hra : readField f <;> cases hpf : parseFields fs <;>
    simp [parseFields, hra, hpf, eq_comm]

lemma parseFields_congr {x y : FieldInput} {fs gs : List FieldInput}
    (h1 : readField x = readField y) (h2 : parseFields fs = parseFields gs) :
    parseFields (x :: fs) = parseFields (y :: gs) := by
  simp only [parseFields, h1, h2]

lemma featNumeric_iff {rows : List (List Cell)} :
    featNumeric rows = true ↔
      ∀ j < 8, ∀ r ∈ rows, (r.getD j (Cell.str "")).isNum = true := by
  simp [featNumeric, colNumeric, List.all_eq_true, List.mem_range]

lemma row_len_of_featNumeric {rows : List (List Cell)}
    (h : featNumeric rows = true) {r : List Cell} (hr : r ∈ rows) :
    8 ≤ r.length := by
  by_contra hlt
  have h7 := (featNumeric_iff.mp h) 7 (by omega) r hr
  rw [List.getD_eq_default _ _ (by omega)] at h7
  simp [Cell.isNum] at h7

lemma featRow_length {r : List Cell} (h : 8 ≤ r.length) :
    (featRow r).length = 8 := by
  simp [featRow]
  omega

lemma zipWith_append_map (rs : List (List Cell)) (h : List Cell → ℚ) :
    List.zipWith (fun r q => r ++ [Cell.num q]) rs (rs.map h)
      = rs.map (fun r => r ++ [Cell.num (h r)]) := by
  induction rs with
  | nil => rfl
  | cons a l ih => simp [ih]

lemma zipWith_append_getElem? (rows : List (List Cell)) (preds : List ℚ)
    (hl : preds.length = rows.length) (i : ℕ) :
    ∃ q, (List.zipWith (fun r p => r ++ [Cell.num p]) rows preds)[i]?
       = (rows[i]?).map (fun r => r ++ [Cell.num q]) := by
  induction rows generalizing preds i with
  | nil => exact ⟨0, by simp⟩
  | cons r rows ih =>
    cases preds with
    | nil => simp at hl
    | cons p preds =>
      cases i with
      | zero => exact ⟨p, by simp⟩
      | succ i => simpa using ih preds (by simpa using hl) i

lemma runBatch_rowwise_some (lang : Lang) (A : Artifacts)
    (f : List ℚ → List ℚ) (g : List ℚ → ℚ)
    (hT : ∀ m, A.transform m = .ok (m.map f))
    (hP : ∀ m, A.predict m = .ok (m.map g))
    (t : BatchTable) (p : String) (h8 : 8 ≤ t.ncols)
    (hnum : featNumeric t.rows = true) :
    runBatch lang A t (some p) =
      (.saved (t.rows.map (fun r => r ++ [Cell.num (g (f (featRow r)))])) p,
       [.readExcel, .callTransform (t.rows.map featRow),
        .callPredict ((t.rows.map featRow).map f), .saveDialog, .writeFile p]) := by
  have hmap : ((t.rows.map featRow).map f).map g
      = t.rows.map (fun r => g (f (featRow r))) := by
    simp [List.map_map, Function.comp]
  unfold runBatch
  rw [if_neg (by omega : ¬ t.ncols < 8), if_pos hnum]
  simp only [hT, hP, List.length_map, if_true, eq_self_iff_true, ite_true]
  rw [hmap, zipWith_append_map]

lemma runBatch_rowwise_none (lang : Lang) (A : Artifacts)
    (f : List ℚ → List ℚ) (g : List ℚ → ℚ)
    (hT : ∀ m, A.transform m = .ok (m.map f))
    (hP : ∀ m, A.predict m = .ok (m.map g))
    (t : BatchTable) (h8 : 8 ≤ t.ncols)
    (hnum : featNumeric t.rows = true) :
    runBatch lang A t none =
      (.cancelled (t.rows.map (fun r => r ++ [Cell.num (g (f (featRow r)))])),
       [.readExcel, .callTransform (t.rows.map featRow),
        .callPredict ((t.rows.map featRow).map f), .saveDialog]) := by
  have hmap : ((t.rows.map featRow).map f).map g
      = t.rows.map (fun r => g (f (featRow r))) := by
    simp [List.map_map, Function.comp]
  unfold runBatch
  rw [if_neg (by omega : ¬ t.ncols < 8), if_pos hnum]
  simp only [hT, hP, List.length_map, if_true, eq_self_iff_true, ite_true]
  rw [hmap, zipWith_append_map]

lemma singleCore_rowwise (A : Artifacts) (f : List ℚ → List ℚ)
    (g : List ℚ → ℚ) (hT : ∀ m, A.transform m = .ok (m.map f))
    (hP : ∀ m, A.predict m = .ok (m.map g)) (v : List ℚ) :
    singleCore A v = Except.ok (g (f v)) := by
  simp [singleCore, hT, hP]

lemma cancelMsg_ne_error (lang : Lang) (m : String) :
    cancelMsg lang ≠ errOccMsg lang ++ " " ++ m := by
  intro h
  have h2 := congrArg String.data h
  rw [String.data_append, String.data_append] at h2
  cases lang with
  | en =>
    have h3 : (some 'S' : Option Char) = some 'A' := by
      calc (some 'S' : Option Char) = (cancelMsg Lang.en).data.head? := rfl
        _ = (((errOccMsg Lang.en).data ++ " ".data) ++ m.data).head? := by rw [h2]
        _ = some 'A' := rfl
    simp at h3
  | zh =>
    have h3 : (some '保' : Option Char) = some '发' := by
      calc (some '保' : Option Char) = (cancelMsg Lang.zh).data.head? := rfl
        _ = (((errOccMsg Lang.zh).data ++ " ".data) ++ m.data).head? := by rw [h2]
        _ = some '发' := rfl
    simp at h3

lemma runBatch_callTransform_inv {lang : Lang} {A : Artifacts} {t : BatchTable}
    {sp : Option String} {m : List (List ℚ)}
    (h : BatchEv.callTransform m ∈ (runBatch lang A t sp).2) :
    m = t.rows.map featRow ∧ featNumeric t.rows = true := by
  unfold runBatch at h
  by_cases h1 : t.ncols < 8
  · rw [if_pos h1] at h
    simp at h
  · rw [if_neg h1] at h
    by_cases h2 : featNumeric t.rows = true
    · rw [if_pos h2] at h
      refine ⟨?_, h2⟩
      split at h
      · simpa using h
      · split at h
        · simpa using h
        · split at h
          · split at h
            · simpa using h
            · simpa using h
          · simpa using h
    · rw [if_neg h2] at h
      simp at h

lemma predictSingle_callTransform_inv {A : Artifacts} {fields : List FieldInput}
    {m : List (List ℚ)}
    (h : SingleEv.callTransform m ∈ (predictSingle A fields).2) :
    ∃ vals, m = [vals] ∧ parseFields fields = some vals := by
  unfold predictSingle at h
  split at h
  · simp at h
  · next vals hpf =>
    refine ⟨vals, ?_, hpf⟩
    split at h
    · simpa using h
    · simpa using h
    · split at h
      · simpa using h
      · simpa using h
      · split at h
        · simpa using h
        · simpa using h

lemma fmCode_mem (lang : Lang) (i : ℕ) (h : i < 5) :
    readField (.combo (comboLabel (fmValues lang) i)) ∈ codesFM.map some := by
  cases lang <;> interval_cases i <;> decide

lemma ftCode_mem (lang : Lang) (i : ℕ) (h : i < 3) :
    readField (.combo (comboLabel (ftValues lang) i)) ∈ codesFT.map some := by
  cases lang <;> interval_cases i <;> decide

lemma bsCode_mem (lang : Lang) (i : ℕ) (h : i < 5) :
    readField (.combo (comboLabel (bsValues lang) i)) ∈ codesBS.map some := by
  cases lang <;> interval_cases i <;> decide

/-! ### Claim theorems -/

/-- C3: for every single-prediction form in which some field is missing or
does not parse as a number, `predict` shows the input-validation message
and makes no call at all into the scaler or the model. -/
theorem single_invalid_field_blocks_model (A : Artifacts)
    (fields : List FieldInput) (f : FieldInput) (hf : f ∈ fields)
    (h : readField f = none) :
    predictSingle A fields = (.inputError, []) := by
  unfold predictSingle
  rw [parseFields_eq_none hf h]

/-- Witness for C3: an empty temperature entry aborts the pipeline with
the input-validation message and an empty call trace. -/
theorem single_invalid_field_blocks_model_witness :
    predictSingle exArtifacts (formFields .en "" "12" "100" "30" "2" 0 0 0)
      = (.inputError, []) :=
  single_invalid_field_blocks_model exArtifacts _ (.entry "") (by decide) (by decide)

/-- C4: a batch table with fewer than 8 columns is rejected with the
"too few columns" diagnostic and neither the scaler nor the model is
invoked. -/
theorem batch_too_few_columns (lang : Lang) (A : Artifacts) (t : BatchTable)
    (sp : Option String) (h : t.ncols < 8) :
    runBatch lang A t sp = (.error (tooFewColsMsg lang), [.readExcel])
    ∧ (∀ m, BatchEv.callTransform m ∉ (runBatch lang A t sp).2)
    ∧ (∀ m, BatchEv.callPredict m ∉ (runBatch lang A t sp).2) := by
  have hr : runBatch lang A t sp = (.error (tooFewColsMsg lang), [.readExcel]) := by
    unfold runBatch
    rw [if_pos h]
  exact ⟨hr, fun m => by rw [hr]; simp, fun m => by rw [hr]; simp⟩

/-- Witness for C4: a three-column table is rejected up front. -/
theorem batch_too_few_columns_witness :
    runBatch .en exArtifacts ⟨3, [[Cell.num 1, Cell.num 2, Cell.num 3]]⟩ none
      = (.error (tooFewColsMsg .en), [.readExcel]) :=
  (batch_too_few_columns .en exArtifacts _ none (by decide)).1

/-- C5: a batch table of at least 8 columns holding a non-numeric value in
one of its first 8 columns is rejected with the "non-numeric feature
column" diagnostic and neither the scaler nor the model is invoked. -/
theorem batch_non_numeric_column (lang : Lang) (A : Artifacts) (t : BatchTable)
    (sp : Option String) (h8 : 8 ≤ t.ncols) (r : List Cell) (hr : r ∈ t.rows)
    (j : ℕ) (hj : j < 8) (s : String) (hc : r[j]? = some (Cell.str s)) :
    runBatch lang A t sp = (.error (nonNumericMsg lang), [.readExcel])
    ∧ (∀ m, BatchEv.callTransform m ∉ (runBatch lang A t sp).2)
    ∧ (∀ m, BatchEv.callPredict m ∉ (runBatch lang A t sp).2) := by
  have hd : r.getD j (Cell.str "") = Cell.str s := by
    rw [List.getD_eq_getD_get?, List.get?_eq_getElem?, hc]
    rfl
  have hfn : ¬ featNumeric t.rows = true := by
    intro htrue
    have hnum := (featNumeric_iff.mp htrue) j hj r hr
    rw [hd] at hnum
    simp [Cell.isNum] at hnum
  have hrun : runBatch lang A t sp = (.error (nonNumericMsg lang), [.readExcel]) := by
    unfold runBatch
    rw [if_neg (by omega), if_neg hfn]
  exact ⟨hrun, fun m => by rw [hrun]; simp, fun m => by rw [hrun]; simp⟩

/-- Witness for C5: a text cell in the second feature column aborts the
run before any scaling or prediction. -/
theorem batch_non_numeric_column_witness :
    runBatch .en exArtifacts
      ⟨8, [[Cell.num 25, Cell.str "x", Cell.num 1, Cell.num 3,
            Cell.num 12, Cell.num 100, Cell.num 30, Cell.num 2]]⟩ none
      = (.error (nonNumericMsg .en), [.readExcel]) :=
  (batch_non_numeric_column .en exArtifacts _ none (by decide)
    [Cell.num 25, Cell.str "x", Cell.num 1, Cell.num 3,
     Cell.num 12, Cell.num 100, Cell.num 30, Cell.num 2]
    (by decide) 1 (by decide) "x" (by decide)).1

/-- C1: for artifacts that act row-wise (as a fitted scaler/model pair
does) and a batch table whose first 8 columns are numeric, the batch path
is order-preserving and refines the single-record path: the output table
pairs row `i` of the input with row `i` of the output, and the appended
prediction of row `i` is exactly what the single-record pipeline
(`scaler.transform` of that row's 8-value feature vector followed by
`model.predict`, first output) produces on the same values. -/
theorem batch_refines_single (lang : Lang) (A : Artifacts)
    (f : List ℚ → List ℚ) (g : List ℚ → ℚ)
    (hT : ∀ m, A.transform m = .ok (m.map f))
    (hP : ∀ m, A.predict m = .ok (m.map g))
    (t : BatchTable) (sp : Option String) (h8 : 8 ≤ t.ncols)
    (hnum : featNumeric t.rows = true) :
    ∃ out, (runBatch lang A t sp).1.table? = some out
      ∧ out.length = t.rows.length
      ∧ ∀ (i : ℕ) (r : List Cell), t.rows[i]? = some r →
          ∃ p, out[i]? = some (r ++ [Cell.num p])
            ∧ singleCore A (featRow r) = Except.ok p := by
  refine ⟨t.rows.map (fun r => r ++ [Cell.num (g (f (featRow r)))]), ?_, by simp, ?_⟩
  · cases sp with
    | none =>
        rw [runBatch_rowwise_none lang A f g hT hP t h8 hnum]
        rfl
    | some p =>
        rw [runBatch_rowwise_some lang A f g hT hP t p h8 hnum]
        rfl
  · intro i r hir
    refine ⟨g (f (featRow r)), ?_, singleCore_rowwise A f g hT hP (featRow r)⟩
    rw [List.getElem?_map, hir]
    rfl

/-- Witness for C1: the concrete two-row table processed with concrete
row-wise artifacts satisfies the refinement conclusion. -/
theorem batch_refines_single_witness :
    ∃ out, (runBatch .en exArtifacts tEx (some "o.xlsx")).1.table? = some out
      ∧ out.length = tEx.rows.length
      ∧ ∀ (i : ℕ) (r : List Cell), tEx.rows[i]? = some r →
          ∃ p, out[i]? = some (r ++ [Cell.num p])
            ∧ singleCore exArtifacts (featRow r) = Except.ok p :=
  batch_refines_single .en exArtifacts (fun v => v) (fun v => v.headD 0)
    (fun _ => rfl) (fun _ => rfl) tEx (some "o.xlsx") (by decide) (by decide)

/-- C2 counterexample: when the opaque scaler's `transform` raises a
`ValueError` (as a fitted sklearn scaler does on a dimensionality mismatch
or NaN input), `predict`'s `except ValueError` arm catches it and shows
the input-validation message, not the generic-error message — contrary to
the claim that internal scaler/model failures are never reported as input
validation failures. -/
theorem single_error_routing_counterexample :
    (predictSingle valErrArtifacts goodFieldsEx).1 = .inputError
    ∧ ∀ m, (predictSingle valErrArtifacts goodFieldsEx).1 ≠ .otherError m := by
  have h : (predictSingle valErrArtifacts goodFieldsEx).1 = .inputError := by decide
  exact ⟨h, fun m => by rw [h]; simp⟩

/-- C2 (amended): `predict` routes by exception type, not origin.  A parse
failure shows the input-validation message without touching the
artifacts; a non-`ValueError` exception from `transform` or from
`predict` shows the generic message with its text; but a `ValueError`
raised by `transform` or by `predict` also lands in the input-validation
arm.  The two messages are distinct outcomes. -/
theorem single_error_routing (A : Artifacts) (fields : List FieldInput) :
    (parseFields fields = none → predictSingle A fields = (.inputError, []))
    ∧ (∀ vals m, parseFields fields = some vals →
        A.transform [vals] = .error (.valueError m) →
        (predictSingle A fields).1 = .inputError)
    ∧ (∀ vals m, parseFields fields = some vals →
        A.transform [vals] = .error (.other m) →
        (predictSingle A fields).1 = .otherError m)
    ∧ (∀ vals scaled m, parseFields fields = some vals →
        A.transform [vals] = .ok scaled →
        A.predict scaled = .error (.valueError m) →
        (predictSingle A fields).1 = .inputError)
    ∧ (∀ vals scaled m, parseFields fields = some vals →
        A.transform [vals] = .ok scaled →
        A.predict scaled = .error (.other m) →
        (predictSingle A fields).1 = .otherError m)
    ∧ (∀ m, (SingleOutcome.inputError : SingleOutcome) ≠ .otherError m) := by
  refine ⟨?_, ?_, ?_, ?_, ?_, by simp⟩
  · intro h
    unfold predictSingle
    rw [h]
  · intro vals m h1 h2
    unfold predictSingle
    simp only [h1, h2]
  · intro vals m h1 h2
    unfold predictSingle
    simp only [h1, h2]
  · intro vals scaled m h1 h2 h3
    unfold predictSingle
    simp only [h1, h2, h3]
  · intro vals scaled m h1 h2 h3
    unfold predictSingle
    simp only [h1, h2, h3]

/-- Witness for C2 (amended): the parse-failure arm and the
generic-exception arm exercised at concrete inputs. -/
theorem single_error_routing_witness :
    predictSingle exArtifacts (formFields .en "x" "12" "100" "30" "2" 0 0 0)
      = (.inputError, [])
    ∧ (predictSingle otherErrArtifacts goodFieldsEx).1 = .otherError "boom" :=
  ⟨(single_error_routing exArtifacts _).1 (by decide),
   (single_error_routing otherErrArtifacts goodFieldsEx).2.2.1
     [25, 2, 1, 3, 12, 100, 30, 2] "boom" (by decide) rfl⟩

/-- C9: when the scaling and prediction of a batch run succeed and the
user cancels the save dialog, the run ends in the cancellation state: no
file is written, and both the state and its status report are distinct
from every error state and report. -/
theorem batch_cancel_no_write (lang : Lang) (A : Artifacts)
    (f : List ℚ → List ℚ) (g : List ℚ → ℚ)
    (hT : ∀ m, A.transform m = .ok (m.map f))
    (hP : ∀ m, A.predict m = .ok (m.map g))
    (t : BatchTable) (h8 : 8 ≤ t.ncols) (hnum : featNumeric t.rows = true) :
    ∃ out, (runBatch lang A t none).1 = .cancelled out
      ∧ (∀ p, BatchEv.writeFile p ∉ (runBatch lang A t none).2)
      ∧ (∀ out' m, BatchOutcome.cancelled out' ≠ BatchOutcome.error m)
      ∧ (∀ m, BatchOutcome.statusText lang (.cancelled out)
              ≠ BatchOutcome.statusText lang (.error m)) := by
  have hrun := runBatch_rowwise_none lang A f g hT hP t h8 hnum
  refine ⟨t.rows.map (fun r => r ++ [Cell.num (g (f (featRow r)))]),
    by rw [hrun], ?_, by simp, ?_⟩
  · intro p
    rw [hrun]
    simp
  · intro m
    simp only [BatchOutcome.statusText]
    exact cancelMsg_ne_error lang m

/-- Witness for C9: cancelling the save dialog on the concrete table
yields the cancellation state and no write event. -/
theorem batch_cancel_no_write_witness :
    ∃ out, (runBatch .en exArtifacts tEx none).1 = .cancelled out
      ∧ (∀ p, BatchEv.writeFile p ∉ (runBatch .en exArtifacts tEx none).2)
      ∧ (∀ out' m, BatchOutcome.cancelled out' ≠ BatchOutcome.error m)
      ∧ (∀ m, BatchOutcome.statusText .en (.cancelled out)
              ≠ BatchOutcome.statusText .en (.error m)) :=
  batch_cancel_no_write .en exArtifacts (fun v => v) (fun v => v.headD 0)
    (fun _ => rfl) (fun _ => rfl) tEx (by decide) (by decide)

/-- C6: every batch run that reaches the saved state produced the input
table with all original columns (including pass-through columns beyond the
first 8) unchanged and in original row order, plus exactly one appended
prediction cell per row. -/
theorem batch_output_appends_one_column (lang : Lang) (A : Artifacts)
    (t : BatchTable) (sp : Option String) (out : List (List Cell)) (p : String)
    (h : (runBatch lang A t sp).1 = .saved out p) :
    out.length = t.rows.length
    ∧ ∀ i : ℕ, ∃ q, out[i]? = (t.rows[i]?).map (fun r => r ++ [Cell.num q]) := by
  unfold runBatch at h
  by_cases h1 : t.ncols < 8
  · rw [if_pos h1] at h
    simp at h
  · rw [if_neg h1] at h
    by_cases h2 : featNumeric t.rows = true
    · rw [if_pos h2] at h
      split at h
      · simp at h
      · split at h
        · simp at h
        · next preds hpreds =>
          split at h
          · next hlen =>
            split at h
            · simp at h
              obtain ⟨hout, hp⟩ := h
              subst hout
              refine ⟨?_, fun i => zipWith_append_getElem? t.rows preds hlen i⟩
              simp [List.length_zipWith]
              omega
            · simp at h
          · simp at h
    · rw [if_neg h2] at h
      simp at h

/-- Witness for C6: the nine-column table's saved output keeps its text
column and gains one prediction cell. -/
theorem batch_output_appends_one_column_witness :
    ([[Cell.num 25, Cell.num 2, Cell.num 1, Cell.num 3, Cell.num 12,
       Cell.num 100, Cell.num 30, Cell.num 2, Cell.str "note",
       Cell.num 25]] : List (List Cell)).length = tEx9.rows.length
    ∧ ∀ i : ℕ, ∃ q,
        ([[Cell.num 25, Cell.num 2, Cell.num 1, Cell.num 3, Cell.num 12,
           Cell.num 100, Cell.num 30, Cell.num 2, Cell.str "note",
           Cell.num 25]] : List (List Cell))[i]?
          = (tEx9.rows[i]?).map (fun r => r ++ [Cell.num q]) :=
  batch_output_appends_one_column .en exArtifacts tEx9 (some "w.xlsx") _ "w.xlsx"
    (by decide)

/-- C7 counterexample: the batch path hands the scaler a feature vector
whose failure-mode position (index 1) holds 99, which is not one of the
enumerated codes 1–5 — the claim's categorical invariant does not hold on
the batch path, which checks only that the columns are numeric. -/
theorem categorical_invariant_counterexample :
    (BatchEv.callTransform [[25, 99, 1, 3, 12, 100, 30, 2]]
      ∈ (runBatch .en exArtifacts tBadFM (some "o.xlsx")).2)
    ∧ (([[(25 : ℚ), 99, 1, 3, 12, 100, 30, 2]].getD 0 []).getD 1 0 = 99)
    ∧ (99 : ℚ) ∉ codesFM := by
  refine ⟨by decide, by decide, by decide⟩

/-- C7 (amended): every feature vector handed to the scaler has all 8
positions present as numbers — the batch path hands exactly the
numeric-checked first-8-column matrix, whose rows all have length 8, and
the single path hands exactly the fully parsed 8-field form vector, whose
three categorical fields are among their enumerated codes.  The batch
path, however, enforces no enumeration bound on the categorical columns:
any numeric value passes (see the counterexample). -/
theorem transform_input_shape :
    (∀ (lang : Lang) (A : Artifacts) (t : BatchTable) (sp : Option String)
        (m : List (List ℚ)),
        BatchEv.callTransform m ∈ (runBatch lang A t sp).2 →
          m = t.rows.map featRow ∧ featNumeric t.rows = true
            ∧ ∀ v ∈ m, v.length = 8)
    ∧ (∀ (A : Artifacts) (fields : List FieldInput) (m : List (List ℚ)),
        SingleEv.callTransform m ∈ (predictSingle A fields).2 →
          ∃ vals, m = [vals] ∧ parseFields fields = some vals)
    ∧ (∀ (lang : Lang) (A : Artifacts) (tS dS laS fcS cdS : String)
        (iFM iFT iBS : ℕ) (m : List (List ℚ)),
        iFM < 5 → iFT < 3 → iBS < 5 →
        SingleEv.callTransform m
          ∈ (predictSingle A (formFields lang tS dS laS fcS cdS iFM iFT iBS)).2 →
          ∃ vals, m = [vals] ∧ vals.length = 8
            ∧ (∃ c ∈ codesFM, vals[1]? = some c)
            ∧ (∃ c ∈ codesFT, vals[2]? = some c)
            ∧ (∃ c ∈ codesBS, vals[3]? = some c)) := by
  refine ⟨?_, fun A fields m h => predictSingle_callTransform_inv h, ?_⟩
  · intro lang A t sp m h
    obtain ⟨hm, hnum⟩ := runBatch_callTransform_inv h
    refine ⟨hm, hnum, ?_⟩
    intro v hv
    rw [hm] at hv
    obtain ⟨r, hr, rfl⟩ := List.mem_map.mp hv
    exact featRow_length (row_len_of_featNumeric hnum hr)
  · intro lang A tS dS laS fcS cdS iFM iFT iBS m hFM hFT hBS h
    obtain ⟨vals, rfl, hpf⟩ := predictSingle_callTransform_inv h
    refine ⟨vals, rfl, ?_⟩
    simp only [formFields] at hpf
    rcases parseFields_cons.mp hpf with ⟨q0, qs0, h0, hpf0, rfl⟩
    rcases parseFields_cons.mp hpf0 with ⟨c1, qs1, hc1, hpf1, rfl⟩
    rcases parseFields_cons.mp hpf1 with ⟨c2, qs2, hc2, hpf2, rfl⟩
    rcases parseFields_cons.mp hpf2 with ⟨c3, qs3, hc3, hpf3, rfl⟩
    rcases parseFields_cons.mp hpf3 with ⟨q4, qs4, h4, hpf4, rfl⟩
    rcases parseFields_cons.mp hpf4 with ⟨q5, qs5, h5, hpf5, rfl⟩
    rcases parseFields_cons.mp hpf5 with ⟨q6, qs6, h6, hpf6, rfl⟩
    rcases parseFields_cons.mp hpf6 with ⟨q7, qs7, h7, hpf7, rfl⟩
    have hnil : qs7 = [] := by
      cases hq : qs7 with
      | nil => rfl
      | cons a l =>
        rw [hq] at hpf7
        simp [parseFields] at hpf7
    subst hnil
    refine ⟨by simp, ?_, ?_, ?_⟩
    · have hmem := fmCode_mem lang iFM hFM
      rw [hc1] at hmem
      obtain ⟨c, hcmem, heq⟩ := List.mem_map.mp hmem
      exact ⟨c1, by rwa [← Option.some.inj heq], rfl⟩
    · have hmem := ftCode_mem lang iFT hFT
      rw [hc2] at hmem
      obtain ⟨c, hcmem, heq⟩ := List.mem_map.mp hmem
      exact ⟨c2, by rwa [← Option.some.inj heq], rfl⟩
    · have hmem := bsCode_mem lang iBS hBS
      rw [hc3] at hmem
      obtain ⟨c, hcmem, heq⟩ := List.mem_map.mp hmem
      exact ⟨c3, by rwa [← Option.some.inj heq], rfl⟩

/-- Witness for C7 (amended): the batch clause exercised on the concrete
table, and the single-prediction clause on the concrete form inputs. -/
theorem transform_input_shape_witness :
    (tEx.rows.map featRow = tEx.rows.map featRow
      ∧ featNumeric tEx.rows = true
      ∧ ∀ v ∈ tEx.rows.map featRow, v.length = 8)
    ∧ (∃ vals, ([[25, 2, 1, 3, 12, 100, 30, 2]] : List (List ℚ)) = [vals]
        ∧ vals.length = 8
        ∧ (∃ c ∈ codesFM, vals[1]? = some c)
        ∧ (∃ c ∈ codesFT, vals[2]? = some c)
        ∧ (∃ c ∈ codesBS, vals[3]? = some c)) :=
  ⟨transform_input_shape.1 .en exArtifacts tEx (some "o.xlsx")
    (tEx.rows.map featRow) (by decide),
   transform_input_shape.2.2 .en exArtifacts "25" "12" "100" "30" "2" 1 0 2
    [[25, 2, 1, 3, 12, 100, 30, 2]] (by decide) (by decide) (by decide) (by decide)⟩

/-- C8: once a batch run starts (a file is selected), the run-batch and
file-selection controls are disabled for the duration of the run and both
are re-enabled when the run reaches its terminal state, whatever that
state is. -/
theorem batch_controls_lifecycle (lang : Lang) (A : Artifacts) (t : BatchTable)
    (sp : Option String) (ui : UIState) :
    (batchPredict lang A (some t) sp ui).2.1 = ⟨false, false⟩
    ∧ (batchPredict lang A (some t) sp ui).2.2 = ⟨true, true⟩
    ∧ (batchPredict lang A (some t) sp ui).1 = some (runBatch lang A t sp) :=
  ⟨rfl, rfl, rfl⟩

/-- C10: for a fixed assignment of the 8 form fields, the single
prediction pipeline computes the same result under the English and the
Chinese display language: the combobox labels differ, but the trailing
parenthesised code extracted from them is the same. -/
theorem single_prediction_language_independent (A : Artifacts)
    (tS dS laS fcS cdS : String) (iFM iFT iBS : ℕ)
    (hFM : iFM < 5) (hFT : iFT < 3) (hBS : iBS < 5) :
    predictSingle A (formFields .en tS dS laS fcS cdS iFM iFT iBS)
      = predictSingle A (formFields .zh tS dS laS fcS cdS iFM iFT iBS) := by
  have hfm : readField (.combo (comboLabel (fmValues .en) iFM))
      = readField (.combo (comboLabel (fmValues .zh) iFM)) := by
    interval_cases iFM <;> decide
  have hft : readField (.combo (comboLabel (ftValues .en) iFT))
      = readField (.combo (comboLabel (ftValues .zh) iFT)) := by
    interval_cases iFT <;> decide
  have hbs : readField (.combo (comboLabel (bsValues .en) iBS))
      = readField (.combo (comboLabel (bsValues .zh) iBS)) := by
    interval_cases iBS <;> decide
  have hpf : parseFields (formFields .en tS dS laS fcS cdS iFM iFT iBS)
      = parseFields (formFields .zh tS dS laS fcS cdS iFM iFT iBS) := by
    simp only [formFields]
    exact parseFields_congr rfl (parseFields_congr hfm (parseFields_congr hft
      (parseFields_congr hbs rfl)))
  unfold predictSingle
  rw [hpf]

/-- Witness for C10: with the example inputs, both languages yield the
identical pipeline result. -/
theorem single_prediction_language_independent_witness :
    predictSingle exArtifacts (formFields .en "25" "12" "100" "30" "2" 1 0 2)
      = predictSingle exArtifacts (formFields .zh "25" "12" "100" "30" "2" 1 0 2) :=
  single_prediction_language_independent exArtifacts "25" "12" "100" "30" "2"
    1 0 2 (by decide) (by decide) (by decide)

end FRP
